import Mathlib

/-!
# BDIX proxy scraper: a shallow embedding of `main.go`

The development embeds the validation engine of `main.go`:

* `formatProxy` (the decoding of one candidate record, lines 122-125 and 171-174),
* `saveProxyToFile`, `saveAllProxiesToFile` (the two writers),
* `checkProxyReachability`, `checkProxy`, `worker` (the probe and its callers),
* a step model of the goroutines of `checkAndSaveProxies` (channel, WaitGroup).

Conventions.  A Go `string` that holds valid UTF-8 text is a Lean `String`; a file holds
bytes, `utf8 s` being the bytes of `s`.  A `float64` is a value of an arbitrary type `F`, and
the two library functions the program applies to its data (`strconv.FormatFloat(x, 'f', -1, 64)`
and `strings.ToLower`) are the fields of a `Lib F`.  Output on the terminal is not modelled.
-/

namespace ProxyScrapper

/-! ## Strings, bytes and files -/

/-- The bytes of a string (its UTF-8 encoding), as written by `file.WriteString`. -/
def utf8 (s : String) : List UInt8 :=
  s.data.flatMap String.utf8EncodeChar

/-- Scanning loop of `strings.ReplaceAll` for a non-empty `old`: `skip` counts the characters
of a match that are still to be dropped; at `skip = 0` a match of `old` at the current position
is replaced by `new`, anything else is copied. -/
def replaceAux (old new : List Char) : Nat → List Char → List Char
  | _, [] => []
  | skip + 1, _ :: cs => replaceAux old new skip cs
  | 0, c :: cs =>
    if old.isPrefixOf (c :: cs) then new ++ replaceAux old new (old.length - 1) cs
    else c :: replaceAux old new 0 cs

/-- Go `strings.ReplaceAll(s, old, new)`: every non-overlapping occurrence of `old`, found from
left to right, is replaced by `new`; an empty `old` matches before every character and at the
end. -/
def ReplaceAll (s old new : String) : String :=
  if old.data = [] then String.mk (new.data ++ s.data.flatMap (fun c => c :: new.data))
  else String.mk (replaceAux old.data new.data 0 s.data)

/-- A file system: the content of each named file, `none` when the file does not exist. -/
abbrev FS := String → Option (List UInt8)

/-- The file system with no file. -/
def FS.empty : FS := fun _ => none

/-- The file system in which file `name` holds `data`, every other file as in `fs`. -/
def FS.put (fs : FS) (name : String) (data : List UInt8) : FS :=
  fun n => if n = name then some data else fs n

/-- Outcome of one `file.WriteString`: `none` when every byte was written, `some n` when the
call returned an error after writing `n` bytes. -/
abbrev WriteResult := Option Nat

/-- Bytes that reach the file for a write of `data` with outcome `wr`. -/
def written (wr : WriteResult) (data : List UInt8) : List UInt8 :=
  match wr with
  | none => data
  | some n => data.take n

/-- A write of `data` at byte offset `off` of a file holding `content`: the bytes under the
written range are overwritten, the rest of the file is kept. -/
def writeAt (content : List UInt8) (off : Nat) (data : List UInt8) : List UInt8 :=
  content.take off ++ data ++ content.drop (off + data.length)

/-! ## Candidate records -/

/-- An element of a decoded JSON array (`interface{}` after `json.Unmarshal`): the dynamic type
and, for the types the program reads, the value. -/
inductive Value (F : Type) where
  | null
  | bool (b : Bool)
  | num (x : F)
  | str (s : String)
  | arr
  | obj
  deriving DecidableEq, Repr

/-- The two library functions applied to candidate data. -/
structure Lib (F : Type) where
  /-- Go strconv.FormatFloat(x, 'f', -1, 64) -/
  FormatFloat : F → String
  /-- Go strings.ToLower -/
  ToLower : String → String

/-- Run-time panics of the decoding lines. -/
inductive Panic where
  | indexOutOfRange (i len : Nat)
  | interfaceConversion (want : String)
  deriving DecidableEq, Repr

/-- The queue element of `main.go`. -/
structure ProxyJob where
  ProxyURL : String
  ProxySchema : String
  deriving DecidableEq, Repr

/-- Go `proxy[i]`: panics when `i` is out of range. -/
def index {F : Type} (proxy : List (Value F)) (i : Nat) : Except Panic (Value F) :=
  match proxy.get? i with
  | some v => .ok v
  | none => .error (.indexOutOfRange i proxy.length)

/-- Go `v.(string)`: panics unless the dynamic type is string. -/
def assertString {F : Type} : Value F → Except Panic String
  | .str s => .ok s
  | _ => .error (.interfaceConversion "string")

/-- Go `v.(float64)`: panics unless the dynamic type is float64. -/
def assertFloat64 {F : Type} : Value F → Except Panic F
  | .num x => .ok x
  | _ => .error (.interfaceConversion "float64")

/-- Lines 122-125 of `checkAndSaveProxies` (the same four lines are 171-174 of
`saveAllProxiesToFile`): `ip`, `port`, `proxySchema`, `proxyURL` of one record, evaluated in
that order. -/
def formatProxy {F : Type} (L : Lib F) (proxy : List (Value F)) : Except Panic ProxyJob :=
  match index proxy 0 with
  | .error p => .error p
  | .ok v0 =>
  match assertString v0 with
  | .error p => .error p
  | .ok ip =>
  match index proxy 1 with
  | .error p => .error p
  | .ok v1 =>
  match assertFloat64 v1 with
  | .error p => .error p
  | .ok x =>
  let port := L.FormatFloat x
  match index proxy 2 with
  | .error p => .error p
  | .ok v2 =>
  match assertString v2 with
  | .error p => .error p
  | .ok s =>
  let proxySchema := L.ToLower s
  let proxyURL := proxySchema ++ "://" ++ ip ++ ":" ++ port
  .ok { ProxyURL := proxyURL, ProxySchema := proxySchema }

/-- A well-formed candidate: a string, a number and a string, followed by any further fields
(which the program never reads). -/
structure Candidate (F : Type) where
  ip : String
  port : F
  scheme : String
  extra : List (Value F)

/-- The record of a well-formed candidate. -/
def Candidate.record {F : Type} (c : Candidate F) : List (Value F) :=
  .str c.ip :: .num c.port :: .str c.scheme :: c.extra

/-- The text `lower(scheme) ++ "://" ++ ip ++ ":" ++ port` of a candidate. -/
def Candidate.url {F : Type} (L : Lib F) (c : Candidate F) : String :=
  L.ToLower c.scheme ++ "://" ++ c.ip ++ ":" ++ L.FormatFloat c.port

/-- The job of a candidate: `ProxyURL = lower(scheme)://ip:port`, `ProxySchema = lower(scheme)`. -/
def Candidate.job {F : Type} (L : Lib F) (c : Candidate F) : ProxyJob :=
  { ProxyURL := c.url L, ProxySchema := L.ToLower c.scheme }

/-- A record is malformed when it has fewer than three fields or a field of the wrong type. -/
def Malformed {F : Type} (proxy : List (Value F)) : Prop :=
  ¬ ∃ c : Candidate F, proxy = c.record

/-! ## The recorder -/

/-- Lines 35-38 of `saveProxyToFile`: the name of the log of a target. -/
def logName (targetURL : String) : String :=
  let targetURL := ReplaceAll targetURL "://" "_"
  let targetURL := ReplaceAll targetURL "/" "_"
  targetURL ++ ".txt"

/-- What the second replacement of `logName` does to one character. -/
def slashToUnderscore (c : Char) : Char := if c = '/' then '_' else c

/-- A target `scheme ++ "://" ++ rest` is plain when the scheme holds no "/" and no "_", and
the rest holds no "_" and no further "://". -/
def Plain (scheme rest : String) : Prop :=
  '/' ∉ scheme.data ∧ '_' ∉ scheme.data ∧ '_' ∉ rest.data ∧ ¬ "://".data <:+: rest.data

instance (scheme rest : String) : Decidable (Plain scheme rest) := by
  unfold Plain
  infer_instance

/-- Go `saveProxyToFile`.  `openErr` tells whether `os.OpenFile` returns an error and `wr` is
the outcome of the `WriteString`.  The file is opened with `O_APPEND|O_CREATE|O_WRONLY`: it is
created empty when absent and every write goes to its end. -/
def saveProxyToFile (proxyURL proxySchema targetURL : String)
    (openErr : Bool) (wr : WriteResult) (fs : FS) : FS :=
  let filename := logName targetURL
  if openErr then fs
  else
    let content := (fs filename).getD []
    fs.put filename (content ++ written wr (utf8 (proxySchema ++ "://" ++ proxyURL ++ "\n")))

/-- Exit of `saveAllProxiesToFile`. -/
inductive Exit where
  | saved
  | openError
  | writeError
  | panic (p : Panic)
  deriving DecidableEq, Repr

/-- The loop of `saveAllProxiesToFile` (lines 170-180) on the open file: `content` is what the
file holds, `off` the byte offset of the descriptor, `i` the number of writes made so far, and
`wr i` the outcome of the next write. -/
def saveAllLoop {F : Type} (L : Lib F) (wr : Nat → WriteResult) :
    List (List (Value F)) → Nat → List UInt8 → Nat → List UInt8 × Exit
  | [], _, content, _ => (content, .saved)
  | proxy :: rest, i, content, off =>
    match formatProxy L proxy with
    | .error p => (content, .panic p)
    | .ok job =>
      let data := utf8 (job.ProxyURL ++ "\n")
      match wr i with
      | some n => (writeAt content off (data.take n), .writeError)
      | none => saveAllLoop L wr rest (i + 1) (writeAt content off data) (off + data.length)

/-- Go `saveAllProxiesToFile`.  The file is opened with `O_CREATE|O_WRONLY` (line 164): it is
created empty when absent, it is not truncated when present, and writing starts at offset 0. -/
def saveAllProxiesToFile {F : Type} (L : Lib F) (openErr : Bool) (wr : Nat → WriteResult)
    (proxyList : List (List (Value F))) (fs : FS) : FS × Exit :=
  if openErr then (fs, .openError)
  else
    let content := (fs "allproxy.txt").getD []
    let r := saveAllLoop L wr proxyList 0 content 0
    (fs.put "allproxy.txt" r.1, r.2)

/-! ## The probe and the worker -/

/-- The part of an HTTP response the program reads. -/
structure Response where
  StatusCode : Nat
  deriving DecidableEq, Repr

/-- Go `http.StatusOK`. -/
def StatusOK : Nat := 200

/-- The network as seen by one probe: `Parse` is `url.Parse` (`none` for an error) and
`Get u target` is `client.Get(target)` through the proxy `u` with the timeouts of lines 60-70
(`none` for a transport error or a timeout); `σ` is the state of the outside world. -/
structure Net (σ U : Type) where
  Parse : String → Option U
  Get : U → String → σ → Option Response × σ

/-- Go `checkProxyReachability`. -/
def checkProxyReachability {σ U : Type} (N : Net σ U) (proxyURL targetURL : String) (e : σ) :
    Bool × σ :=
  match N.Parse proxyURL with
  | none => (false, e)
  | some proxyURLParsed =>
    match N.Get proxyURLParsed targetURL e with
    | (none, e1) => (false, e1)
    | (some resp, e1) => if resp.StatusCode = StatusOK then (true, e1) else (false, e1)

/-- Calls made by a worker, in the order they are made. -/
inductive Event where
  | probe (proxyURL targetURL : String) (result : Bool)
  | lock
  | save (proxyURL proxySchema targetURL : String)
  | unlock
  | done
  deriving DecidableEq, Repr

/-- The world a worker acts on: the outside world, the files, and the calls made so far. -/
structure World (σ : Type) where
  env : σ
  fs : FS
  trace : List Event

/-- Outcome of the open and of the write of one `saveProxyToFile` call on the named file. -/
abbrev Disk (σ : Type) := String → σ → (Bool × WriteResult) × σ

/-- A disk on which every open and every write succeeds. -/
def Disk.ok {σ : Type} : Disk σ := fun _ e => ((false, none), e)

/-- Body of the loop of `checkProxy` (lines 91-95) for one target, with the probe `probe`. -/
def probeAndSave {σ : Type} (probe : String → String → σ → Bool × σ) (disk : Disk σ)
    (proxyURL proxySchema : String) (w : World σ) (targetURL : String) : World σ :=
  match probe proxyURL targetURL w.env with
  | (true, e1) =>
    match disk (logName targetURL) e1 with
    | (d, e2) =>
      { env := e2
        fs := saveProxyToFile proxyURL proxySchema targetURL d.1 d.2 w.fs
        trace := w.trace ++ [.probe proxyURL targetURL true, .lock,
                              .save proxyURL proxySchema targetURL, .unlock] }
  | (false, e1) =>
    { env := e1, fs := w.fs, trace := w.trace ++ [.probe proxyURL targetURL false] }

/-- Go `checkProxy` with the probe as a parameter: the loop over the targets, then the
deferred `wg.Done()`. -/
def checkProxyWith {σ : Type} (probe : String → String → σ → Bool × σ) (disk : Disk σ)
    (proxyURL proxySchema : String) (targetURLs : List String) (w : World σ) : World σ :=
  let w1 := targetURLs.foldl (probeAndSave probe disk proxyURL proxySchema) w
  { w1 with trace := w1.trace ++ [.done] }

/-- Go `checkProxy`: the probe is `checkProxyReachability`. -/
def checkProxy {σ U : Type} (N : Net σ U) (disk : Disk σ)
    (proxyURL proxySchema : String) (targetURLs : List String) (w : World σ) : World σ :=
  checkProxyWith (checkProxyReachability N) disk proxyURL proxySchema targetURLs w

/-- Go `worker`, for the jobs this worker receives from the channel, in the order received:
`checkProxy` on each, then the deferred `wg.Done()`. -/
def worker {σ U : Type} (N : Net σ U) (disk : Disk σ) (jobs : List ProxyJob)
    (targetURLs : List String) (w : World σ) : World σ :=
  let w1 := jobs.foldl
    (fun w job => checkProxy N disk job.ProxyURL job.ProxySchema targetURLs w) w
  { w1 with trace := w1.trace ++ [.done] }

/-- Lines 121-131 of `checkAndSaveProxies`: the jobs sent on the channel, in order, and the
panic that ends the loop, if any. -/
def enqueueAll {F : Type} (L : Lib F) : List (List (Value F)) → List ProxyJob × Option Panic
  | [] => ([], none)
  | proxy :: rest =>
    match formatProxy L proxy with
    | .error p => ([], some p)
    | .ok job => ((job :: (enqueueAll L rest).1), (enqueueAll L rest).2)

/-- The target list of `main` (lines 197-205). -/
def targetURLs : List String :=
  [ "http://circleftp.net/",
    "http://172.16.50.4",
    "http://15.1.1.4",
    "http://ftp4.circleftp.net",
    "http://172.16.50.5",
    "http://103.153.175.254/NAS1",
    "http://discoveryftp.net" ]

/-- Library functions for examples: numbers are natural numbers printed in decimal (what
`FormatFloat(x, 'f', -1, 64)` prints for such an `x`), and lower-casing is that of ASCII. -/
def exampleLib : Lib Nat where
  FormatFloat := Nat.repr
  ToLower := fun s => String.mk (s.data.map Char.toLower)

/-- A network on which every proxy URL parses and every request is answered with status 200. -/
def alwaysOK : Net Unit String where
  Parse := fun s => some s
  Get := fun _ _ e => (some { StatusCode := 200 }, e)

/-! ## Step model of the goroutines of `checkAndSaveProxies` -/

/-- Line 111. -/
def numWorkers : Nat := 100

/-- Where the goroutine that runs `checkAndSaveProxies` stands. -/
inductive MainPC (F : Type) where
  /-- head of the loop of line 116, `i` workers started -/
  | spawn (i : Nat)
  /-- line 118, after the `wg.Add(1)` of line 117 -/
  | go (i : Nat)
  /-- head of the loop of line 121, with the records still to be read; `close(jobs)` follows -/
  | send (rest : List (List (Value F)))
  /-- line 135, `wg.Wait()` -/
  | wait
  | returned
  | panicked (p : Panic)
  deriving DecidableEq, Repr

/-- Where a `worker` goroutine stands. -/
inductive WorkerPC where
  /-- head of the loop of line 102, receiving from the channel -/
  | recv
  /-- inside `checkProxy` for `job`, with the targets still to be probed -/
  | probing (job : ProxyJob) (rest : List String)
  | exited
  deriving DecidableEq, Repr

/-- State of the goroutines: program counters, the buffered channel `jobs` (its buffer, its
capacity, whether it is closed) and the counter of the WaitGroup. -/
structure State (F : Type) where
  main : MainPC F
  workers : List WorkerPC
  jobs : List ProxyJob
  cap : Nat
  closed : Bool
  wg : Int

/-- A goroutine: the one running `checkAndSaveProxies`, or the `k`-th worker started. -/
inductive Thread where
  | main
  | worker (k : Nat)
  deriving DecidableEq, Repr

/-- State on entry of `checkAndSaveProxies` (lines 111-114). -/
def init {F : Type} (proxyList : List (List (Value F))) : State F :=
  { main := .spawn 0, workers := [], jobs := [], cap := proxyList.length,
    closed := false, wg := 0 }

/-- One step of the goroutine running `checkAndSaveProxies`; `none` when it is blocked or has
ended. -/
def stepMain {F : Type} (L : Lib F) (proxyList : List (List (Value F))) (s : State F) :
    Option (State F) :=
  match s.main with
  | .spawn i =>
    if i < numWorkers then some { s with wg := s.wg + 1, main := .go i }
    else some { s with main := .send proxyList }
  | .go i => some { s with workers := s.workers ++ [.recv], main := .spawn (i + 1) }
  | .send [] => some { s with closed := true, main := .wait }
  | .send (proxy :: rest) =>
    match formatProxy L proxy with
    | .error p => some { s with main := .panicked p }
    | .ok job =>
      if s.jobs.length < s.cap then some { s with jobs := s.jobs ++ [job], main := .send rest }
      else none
  | .wait => if s.wg = 0 then some { s with main := .returned } else none
  | .returned => none
  | .panicked _ => none

/-- One step of the `k`-th worker; `none` when it does not exist, is blocked or has exited.
Receiving takes the oldest job of the buffer; on a closed and drained channel the loop of line
102 ends and the deferred `wg.Done()` of line 100 runs.  Inside `checkProxy` a step handles one
target, and when no target is left the deferred `wg.Done()` of line 88 runs. -/
def stepWorker {F : Type} (targetURLs : List String) (k : Nat) (s : State F) :
    Option (State F) :=
  match s.workers.get? k with
  | none => none
  | some .recv =>
    match s.jobs with
    | job :: q => some { s with jobs := q, workers := s.workers.set k (.probing job targetURLs) }
    | [] =>
      if s.closed then some { s with wg := s.wg - 1, workers := s.workers.set k .exited }
      else none
  | some (.probing job (_ :: rest)) =>
    some { s with workers := s.workers.set k (.probing job rest) }
  | some (.probing _ []) => some { s with wg := s.wg - 1, workers := s.workers.set k .recv }
  | some .exited => none

/-- One step of the program by goroutine `t`.  A `wg.Done()` that takes the counter below zero
panics and a panic ends the process: no step is taken from a state with a negative counter or
with the main goroutine panicked. -/
def step {F : Type} (L : Lib F) (proxyList : List (List (Value F))) (targetURLs : List String)
    (s : State F) (t : Thread) : Option (State F) :=
  if s.wg < 0 then none
  else
    match s.main with
    | .panicked _ => none
    | _ =>
      match t with
      | .main => stepMain L proxyList s
      | .worker k => stepWorker targetURLs k s

/-- The state after the steps of a schedule, `none` when one of them cannot be taken. -/
def run {F : Type} (L : Lib F) (proxyList : List (List (Value F))) (targetURLs : List String) :
    List Thread → State F → Option (State F)
  | [], s => some s
  | t :: ts, s =>
    match step L proxyList targetURLs s t with
    | none => none
    | some s1 => run L proxyList targetURLs ts s1

/-- The states some schedule leads to from the entry of `checkAndSaveProxies`. -/
def Reachable {F : Type} (L : Lib F) (proxyList : List (List (Value F)))
    (targetURLs : List String) (s : State F) : Prop :=
  ∃ sched : List Thread, run L proxyList targetURLs sched (init proxyList) = some s

/-- The probe calls of a trace, in order: proxy, target and result of each. -/
def probeCalls (es : List Event) : List (String × String × Bool) :=
  es.filterMap fun
    | .probe p t r => some (p, t, r)
    | _ => none

/-- The `saveProxyToFile` calls of a trace, in order, with their three arguments. -/
def saveCalls (es : List Event) : List (String × String × String) :=
  es.filterMap fun
    | .save p s t => some (p, s, t)
    | _ => none

/-- Whether the schedule can be run from the entry of `checkAndSaveProxies` and ends in a
state that satisfies `p`. -/
def leadsTo {F : Type} (L : Lib F) (proxyList : List (List (Value F)))
    (targetURLs : List String) (sched : List Thread) (p : State F → Bool) : Bool :=
  match run L proxyList targetURLs sched (init proxyList) with
  | some s => p s
  | none => false

/-- The candidate of the scenario of the specification. -/
def cand1 : Candidate Nat := { ip := "203.0.113.5", port := 8080, scheme := "http", extra := [] }

/-- A record whose port is a string. -/
def badRec : List (Value Nat) := [.str "192.0.2.7", .str "8080", .str "http"]

/-- A world with no file and no call made. -/
def world0 : World Unit := { env := (), fs := FS.empty, trace := [] }

/-- The record of the scenario of the specification. -/
def rec1 : List (Value Nat) := [.str "203.0.113.5", .num 8080, .str "http"]

/-- A second record. -/
def rec2 : List (Value Nat) := [.str "198.51.100.9", .num 3128, .str "HTTPS"]

/-- A schedule for two candidates: everything the main goroutine does up to `wg.Wait()`, then
workers 0 and 1 receive one job each, workers 2 to 99 find the channel closed and exit, and
worker 0 finishes its job and exits. -/
def schedEarlyReturn : List Thread :=
  List.replicate 204 .main ++ [.worker 0, .worker 1]
    ++ (List.range 98).map (fun k => .worker (k + 2))
    ++ List.replicate 9 (.worker 0)

/-- A schedule for one candidate: everything the main goroutine does up to `wg.Wait()`, then
worker 0 receives and finishes the job, then every worker exits. -/
def schedNegative : List Thread :=
  List.replicate 203 .main ++ List.replicate 9 (.worker 0)
    ++ (List.range 100).map (fun k => .worker k)


/-! # Theorems -/

/-! ## The line written by the recorder -/

/-- The record of a candidate decodes to the job with `ProxyURL = lower(scheme)://ip:port` and
`ProxySchema = lower(scheme)`. -/
theorem formatProxy_record {F : Type} (L : Lib F) (c : Candidate F) :
    formatProxy L c.record = .ok (c.job L) :=
  rfl

/-- C1, evaluated on the scenario of the specification: for the record
("203.0.113.5", 8080, "http") and the target "http://example.test" answered with status 200,
the line appended to the log "http_example.test.txt" is "http://http://203.0.113.5:8080": the
scheme prefix occurs twice, and the line differs from lower(scheme) + "://" + ip + ":" + port. -/
theorem saved_line_repeats_scheme :
    (enqueueAll exampleLib [rec1]).1
        = [{ ProxyURL := "http://203.0.113.5:8080", ProxySchema := "http" }]
    ∧ (worker alwaysOK Disk.ok (enqueueAll exampleLib [rec1]).1 ["http://example.test"]
          world0).fs "http_example.test.txt"
        = some (utf8 "http://http://203.0.113.5:8080\n")
    ∧ utf8 "http://http://203.0.113.5:8080\n" ≠ utf8 (cand1.url exampleLib ++ "\n") := by
  decide

/-! ## The probe -/

/-- C3: `checkProxyReachability` returns true exactly when the proxy URL parses, the GET
returns a response without error, and the status code of the response is 200; hence a parse
error, a transport error or timeout, or any other status gives false. -/
theorem checkProxyReachability_true_iff {σ U : Type} (N : Net σ U)
    (proxyURL targetURL : String) (e : σ) :
    (checkProxyReachability N proxyURL targetURL e).1 = true ↔
      ∃ u resp, N.Parse proxyURL = some u ∧ (N.Get u targetURL e).1 = some resp
        ∧ resp.StatusCode = 200 := by
  unfold checkProxyReachability
  cases hp : N.Parse proxyURL with
  | none => simp
  | some u =>
    cases hg : N.Get u targetURL e with
    | mk r e1 =>
      cases r with
      | none => simp [hg]
      | some resp =>
        by_cases hs : resp.StatusCode = StatusOK
        · simp [hg, hs, StatusOK]
        · simp [hg, hs]
          intro h
          exact hs h

/-! ## The loop of `checkProxy` -/

/-- Calls made by the body of the loop for a target whose probe gave `r`. -/
theorem probeAndSave_trace {σ : Type} (probe : String → String → σ → Bool × σ) (disk : Disk σ)
    (proxyURL proxySchema : String) (w : World σ) (t : String) :
    (probeAndSave probe disk proxyURL proxySchema w t).trace =
      w.trace ++ (if (probe proxyURL t w.env).1 then
        [.probe proxyURL t true, .lock, .save proxyURL proxySchema t, .unlock]
        else [.probe proxyURL t false]) := by
  unfold probeAndSave
  cases h : probe proxyURL t w.env with
  | mk r e1 => cases r <;> simp

/-- The loop of `checkProxy` over the targets: one probe per target in order, one save per
successful probe. -/
theorem loop_calls {σ : Type} (probe : String → String → σ → Bool × σ) (disk : Disk σ)
    (proxyURL proxySchema : String) (targets : List String) :
    ∀ w : World σ, ∃ new : List Event,
      (targets.foldl (probeAndSave probe disk proxyURL proxySchema) w).trace = w.trace ++ new
      ∧ (probeCalls new).map (fun c => (c.1, c.2.1)) = targets.map (fun t => (proxyURL, t))
      ∧ saveCalls new = ((probeCalls new).filter (fun c => c.2.2)).map
          (fun c => (proxyURL, proxySchema, c.2.1))
      ∧ ∀ f : String → Bool, (∀ t e, (probe proxyURL t e).1 = f t) →
          saveCalls new = (targets.filter f).map (fun t => (proxyURL, proxySchema, t)) := by
  induction targets with
  | nil => intro w; exact ⟨[], by simp, by simp [probeCalls], by simp [probeCalls, saveCalls],
      fun f _ => by simp [saveCalls]⟩
  | cons t ts ih =>
    intro w
    obtain ⟨new, h1, h2, h3, h4⟩ := ih (probeAndSave probe disk proxyURL proxySchema w t)
    rw [probeAndSave_trace] at h1
    by_cases hr : (probe proxyURL t w.env).1 = true
    · refine ⟨[.probe proxyURL t true, .lock, .save proxyURL proxySchema t, .unlock] ++ new,
        ?_, ?_, ?_, ?_⟩
      · simp [List.foldl_cons, h1, hr]
      · simpa [probeCalls, List.filterMap_cons] using h2
      · simpa [probeCalls, saveCalls, List.filterMap_cons] using h3
      · intro f hf
        have hft : f t = true := by rw [← hf t w.env]; exact hr
        have := h4 f hf
        simpa [saveCalls, List.filterMap_cons, List.filter_cons, hft] using this
    · refine ⟨[.probe proxyURL t false] ++ new, ?_, ?_, ?_, ?_⟩
      · simp [List.foldl_cons, h1, hr]
      · simpa [probeCalls, List.filterMap_cons] using h2
      · simpa [probeCalls, saveCalls, List.filterMap_cons] using h3
      · intro f hf
        have hft : f t = false := by
          rw [← hf t w.env]; simpa using hr
        have := h4 f hf
        simpa [saveCalls, List.filterMap_cons, List.filter_cons, hft] using this

/-- C4: for every job, target list and probe oracle, the calls `checkProxy` adds to the trace
contain one probe per target, in list order, and one `saveProxyToFile` call per probe that
returned true, in that order; when the result of the probe is a function `f` of the target,
the save calls are those of the target list filtered by `f`. -/
theorem checkProxy_probes_each_target_once {σ : Type}
    (probe : String → String → σ → Bool × σ) (disk : Disk σ)
    (proxyURL proxySchema : String) (targets : List String) (w : World σ) :
    ∃ new : List Event,
      (checkProxyWith probe disk proxyURL proxySchema targets w).trace = w.trace ++ new
      ∧ (probeCalls new).map (fun c => (c.1, c.2.1)) = targets.map (fun t => (proxyURL, t))
      ∧ saveCalls new = ((probeCalls new).filter (fun c => c.2.2)).map
          (fun c => (proxyURL, proxySchema, c.2.1))
      ∧ ∀ f : String → Bool, (∀ t e, (probe proxyURL t e).1 = f t) →
          saveCalls new = (targets.filter f).map (fun t => (proxyURL, proxySchema, t)) := by
  obtain ⟨new, h1, h2, h3, h4⟩ := loop_calls probe disk proxyURL proxySchema targets w
  refine ⟨new ++ [.done], ?_, ?_, ?_, ?_⟩
  · simp [checkProxyWith, h1]
  · simpa [probeCalls, List.filterMap_append] using h2
  · simpa [probeCalls, saveCalls, List.filterMap_append] using h3
  · intro f hf
    simpa [saveCalls, List.filterMap_append] using h4 f hf

/-- C4 on the targets of `main`, with a probe that succeeds on the second and on the fifth
target only: the save calls are those two targets, in that order. -/
theorem checkProxy_probes_each_target_once_witness :
    ∃ new : List Event,
      (checkProxyWith
        (fun _ t e => (decide (t ∈ ["http://172.16.50.4", "http://172.16.50.5"]), e)) Disk.ok
        "http://203.0.113.5:8080" "http" targetURLs world0).trace = world0.trace ++ new
      ∧ (probeCalls new).map (fun c => (c.1, c.2.1))
          = targetURLs.map (fun t => ("http://203.0.113.5:8080", t))
      ∧ saveCalls new = [("http://203.0.113.5:8080", "http", "http://172.16.50.4"),
          ("http://203.0.113.5:8080", "http", "http://172.16.50.5")] := by
  obtain ⟨new, h1, h2, _, h4⟩ := checkProxy_probes_each_target_once
    (fun _ t (e : Unit) => (decide (t ∈ ["http://172.16.50.4", "http://172.16.50.5"]), e))
    Disk.ok "http://203.0.113.5:8080" "http" targetURLs world0
  exact ⟨new, h1, h2,
    (h4 (fun t => decide (t ∈ ["http://172.16.50.4", "http://172.16.50.5"]))
      (fun _ _ => rfl)).trans (by decide)⟩

/-! ## Appending to a target log -/

/-- C9: a `saveProxyToFile` call whose open and write succeed leaves the log of the target
equal to its prior content (empty when absent) followed by the one line
`proxySchema://proxyURL`, and leaves every other file as it was; a second identical call
leaves the prior content followed by the same line twice. -/
theorem saveProxyToFile_appends (proxyURL proxySchema targetURL : String) (fs : FS) :
    (∀ name, saveProxyToFile proxyURL proxySchema targetURL false none fs name =
      if name = logName targetURL then
        some ((fs (logName targetURL)).getD [] ++ utf8 (proxySchema ++ "://" ++ proxyURL ++ "\n"))
      else fs name)
    ∧ (∀ name, saveProxyToFile proxyURL proxySchema targetURL false none
          (saveProxyToFile proxyURL proxySchema targetURL false none fs) name =
      if name = logName targetURL then
        some ((fs (logName targetURL)).getD [] ++ utf8 (proxySchema ++ "://" ++ proxyURL ++ "\n")
          ++ utf8 (proxySchema ++ "://" ++ proxyURL ++ "\n"))
      else fs name) := by
  constructor
  · intro name
    simp [saveProxyToFile, FS.put, written]
  · intro name
    by_cases h : name = logName targetURL
    · simp [saveProxyToFile, FS.put, written, h]
    · simp [saveProxyToFile, FS.put, written, h]

/-! ## The full dump -/

/-- Writing at the end of a file appends. -/
theorem writeAt_end (content data : List UInt8) :
    writeAt content content.length data = content ++ data := by
  simp [writeAt]

/-- The loop of `saveAllProxiesToFile` on well-formed records, started at the end of the
file with no write failing, appends one line per record. -/
theorem saveAllLoop_appends {F : Type} (L : Lib F) (cs : List (Candidate F)) :
    ∀ (i : Nat) (content : List UInt8),
      saveAllLoop L (fun _ => none) (cs.map Candidate.record) i content content.length
        = (content ++ cs.flatMap (fun c => utf8 (c.url L ++ "\n")), .saved) := by
  induction cs with
  | nil => intro i content; simp [saveAllLoop]
  | cons c cs ih =>
    intro i content
    have h := ih (i + 1) (content ++ utf8 (c.url L ++ "\n"))
    simp only [List.length_append] at h
    simp [saveAllLoop, formatProxy_record, writeAt_end, Candidate.job, h]

/-- C5: for well-formed candidates, when `allproxy.txt` is absent or empty beforehand and no
write fails, `saveAllProxiesToFile` leaves in the file exactly the lines
`lower(scheme)://ip:port` of the candidates, one per candidate in input order, and changes no
other file; no probe takes part. -/
theorem saveAllProxiesToFile_fresh {F : Type} (L : Lib F) (cs : List (Candidate F)) (fs : FS)
    (h : fs "allproxy.txt" = none ∨ fs "allproxy.txt" = some []) :
    saveAllProxiesToFile L false (fun _ => none) (cs.map Candidate.record) fs
      = (fs.put "allproxy.txt" (cs.flatMap (fun c => utf8 (c.url L ++ "\n"))), .saved) := by
  have h0 : (fs "allproxy.txt").getD [] = [] := by
    rcases h with h | h <;> simp [h]
  have := saveAllLoop_appends L cs 0 []
  simp only [List.length_nil, List.nil_append] at this
  simp [saveAllProxiesToFile, h0, this]

/-- C5 on the scenario of the specification: the dump of the one candidate is the one line
"http://203.0.113.5:8080". -/
theorem saveAllProxiesToFile_fresh_witness :
    (FS.empty "allproxy.txt" = none ∨ FS.empty "allproxy.txt" = some [])
    ∧ saveAllProxiesToFile exampleLib false (fun _ => none) ([cand1].map Candidate.record)
        FS.empty
      = (FS.empty.put "allproxy.txt" ([cand1].flatMap (fun c => utf8 (c.url exampleLib ++ "\n"))),
          .saved)
    ∧ [cand1].flatMap (fun c => utf8 (c.url exampleLib ++ "\n"))
      = utf8 "http://203.0.113.5:8080\n" :=
  ⟨Or.inl rfl, saveAllProxiesToFile_fresh exampleLib [cand1] FS.empty (Or.inl rfl), by decide⟩

/-- C6, evaluated: with `allproxy.txt` holding the 28 bytes of "socks5://198.51.100.77:1080"
and its newline beforehand, the dump of the one candidate ("203.0.113.5", 8080, "http") leaves
the 24 bytes of the new line followed by the last 4 bytes of the old content, and the dump of
the empty list leaves the old content whole: the file is not truncated. -/
theorem saveAllProxiesToFile_keeps_old_tail :
    (saveAllProxiesToFile exampleLib false (fun _ => none) [rec1]
        (FS.empty.put "allproxy.txt" (utf8 "socks5://198.51.100.77:1080\n"))).1 "allproxy.txt"
      = some (utf8 "http://203.0.113.5:8080\n080\n")
    ∧ (saveAllProxiesToFile exampleLib false (fun _ => none) ([] : List (List (Value Nat)))
        (FS.empty.put "allproxy.txt" (utf8 "socks5://198.51.100.77:1080\n"))).1 "allproxy.txt"
      = some (utf8 "socks5://198.51.100.77:1080\n")
    ∧ utf8 "http://203.0.113.5:8080\n080\n" ≠ utf8 "http://203.0.113.5:8080\n"
    ∧ utf8 "socks5://198.51.100.77:1080\n" ≠ [] := by
  decide

/-! ## Log names -/

theorem replaceAux_slash (s : List Char) :
    replaceAux ['/'] ['_'] 0 s = s.map slashToUnderscore := by
  induction s with
  | nil => simp [replaceAux]
  | cons c cs ih =>
    by_cases hc : c = '/'
    · subst hc
      simp [replaceAux, ih, slashToUnderscore, List.isPrefixOf]
    · have : ('/' == c) = false := by simpa using fun h => hc h.symm
      simp [replaceAux, ih, slashToUnderscore, List.isPrefixOf, hc, this]

theorem replaceAux_noInfix (old new : List Char) (s : List Char) (h : ¬ old <:+: s) :
    replaceAux old new 0 s = s := by
  induction s with
  | nil => simp [replaceAux]
  | cons c cs ih =>
    have h1 : old.isPrefixOf (c :: cs) = false := by
      cases hp : old.isPrefixOf (c :: cs) with
      | false => rfl
      | true => exact absurd (List.isPrefixOf_iff_prefix.mp hp).isInfix h
    have h2 : ¬ old <:+: cs := fun hi => h (List.infix_cons hi)
    simp [replaceAux, h1, ih h2]

theorem replaceAux_sep (p r : List Char) (hp : '/' ∉ p) :
    replaceAux [':', '/', '/'] ['_'] 0 (p ++ ':' :: '/' :: '/' :: r)
      = p ++ '_' :: replaceAux [':', '/', '/'] ['_'] 0 r := by
  induction p with
  | nil => simp [replaceAux, List.isPrefixOf]
  | cons c p ih =>
    have hp1 : '/' ∉ p := fun h => hp (List.mem_cons_of_mem _ h)
    have hno : List.isPrefixOf [':', '/', '/'] (c :: (p ++ ':' :: '/' :: '/' :: r)) = false := by
      cases p with
      | nil => simp [List.isPrefixOf]
      | cons d p =>
        have hd : d ≠ '/' := fun h => hp (by simp [h])
        have : ('/' == d) = false := by simpa using fun h => hd h.symm
        simp [List.isPrefixOf, this]
    have := ih hp1
    simp only [List.cons_append] at hno ⊢
    simp only [replaceAux, hno]
    simpa using this

theorem map_slash_of_not_mem (p : List Char) (hp : '/' ∉ p) : p.map slashToUnderscore = p := by
  induction p with
  | nil => rfl
  | cons c p ih =>
    have hc : c ≠ '/' := fun h => hp (by simp [h])
    have hp1 : '/' ∉ p := fun h => hp (List.mem_cons_of_mem _ h)
    simp [slashToUnderscore, hc, ih hp1]

theorem logName_data (p r : String) (hp : '/' ∉ p.data) (hr : ¬ "://".data <:+: r.data) :
    (logName (p ++ "://" ++ r)).data
      = p.data ++ '_' :: (r.data.map slashToUnderscore ++ ".txt".data) := by
  have e1 : "://".data = [':', '/', '/'] := rfl
  have e2 : "/".data = ['/'] := rfl
  have e3 : "_".data = ['_'] := rfl
  rw [e1] at hr
  simp only [logName, ReplaceAll, e1, e2, e3, String.data_append]
  simp [replaceAux_sep _ _ hp, replaceAux_noInfix _ _ _ hr, replaceAux_slash,
    map_slash_of_not_mem _ hp, slashToUnderscore]

theorem split_at_first {α : Type} (x : α) :
    ∀ (a b c d : List α), x ∉ a → x ∉ b → a ++ x :: c = b ++ x :: d → a = b ∧ c = d := by
  intro a
  induction a with
  | nil =>
    intro b c d _ hb h
    cases b with
    | nil => simpa using h
    | cons y b =>
      simp at h
      exact absurd (by simp [h.1]) hb
  | cons y a ih =>
    intro b c d ha hb h
    cases b with
    | nil =>
      simp at h
      exact absurd (by simp [h.1]) ha
    | cons z b =>
      simp at h
      obtain ⟨h1, h2⟩ := ih b c d (fun m => ha (List.mem_cons_of_mem _ m))
        (fun m => hb (List.mem_cons_of_mem _ m)) h.2
      exact ⟨by rw [h.1, h1], h2⟩

theorem map_slash_inj : ∀ (a b : List Char), '_' ∉ a → '_' ∉ b →
    a.map slashToUnderscore = b.map slashToUnderscore → a = b := by
  intro a
  induction a with
  | nil => intro b _ _ h; cases b with
    | nil => rfl
    | cons _ _ => simp at h
  | cons x a ih =>
    intro b ha hb h
    cases b with
    | nil => simp at h
    | cons y b =>
      simp only [List.map_cons, List.cons.injEq] at h
      have hx : x ≠ '_' := fun e => ha (by simp [e])
      have hy : y ≠ '_' := fun e => hb (by simp [e])
      have hxy : x = y := by
        have h1 := h.1
        unfold slashToUnderscore at h1
        by_cases cx : x = '/' <;> by_cases cy : y = '/' <;> simp [cx, cy] at h1
        · rw [cx, cy]
        · exact absurd h1.symm hy
        · exact absurd h1 hx
        · exact h1
      rw [hxy, ih b (fun m => ha (List.mem_cons_of_mem _ m))
        (fun m => hb (List.mem_cons_of_mem _ m)) h.2]

/-- C8 refuted: the target "http://103.153.175.254/NAS1" of `main` and the different target
"http://103.153.175.254_NAS1" have the same log name. -/
theorem logName_collision :
    "http://103.153.175.254/NAS1" ≠ "http://103.153.175.254_NAS1"
    ∧ logName "http://103.153.175.254/NAS1" = "http_103.153.175.254_NAS1.txt"
    ∧ logName "http://103.153.175.254_NAS1" = "http_103.153.175.254_NAS1.txt" := by
  decide

/-- C8 as amended: two distinct plain targets (scheme without "/" and "_", rest without "_"
and without a further "://") have distinct log names. -/
theorem logName_injective_on_plain (p1 r1 p2 r2 : String)
    (h1 : Plain p1 r1) (h2 : Plain p2 r2)
    (hne : p1 ++ "://" ++ r1 ≠ p2 ++ "://" ++ r2) :
    logName (p1 ++ "://" ++ r1) ≠ logName (p2 ++ "://" ++ r2) := by
  intro h
  apply hne
  have hd := congrArg String.data h
  rw [logName_data p1 r1 h1.1 h1.2.2.2, logName_data p2 r2 h2.1 h2.2.2.2] at hd
  obtain ⟨ha, hb⟩ := split_at_first '_' _ _ _ _ h1.2.1 h2.2.1 hd
  have hm := map_slash_inj _ _ h1.2.2.1 h2.2.2.1 (List.append_cancel_right hb)
  have e1 : p1 = p2 := String.ext ha
  have e2 : r1 = r2 := String.ext hm
  rw [e1, e2]

/-- C8 as amended, on two targets of `main`. -/
theorem logName_injective_on_plain_witness :
    Plain "http" "103.153.175.254/NAS1" ∧ Plain "http" "circleftp.net/"
    ∧ "http" ++ "://" ++ "103.153.175.254/NAS1" ≠ "http" ++ "://" ++ "circleftp.net/"
    ∧ logName ("http" ++ "://" ++ "103.153.175.254/NAS1")
        ≠ logName ("http" ++ "://" ++ "circleftp.net/") :=
  ⟨by decide, by decide, by decide,
    logName_injective_on_plain "http" "103.153.175.254/NAS1" "http" "circleftp.net/"
      (by decide) (by decide) (by decide)⟩

/-! ## Malformed records -/

/-- A record that decodes without panic is the record of a candidate. -/
theorem formatProxy_ok_wellFormed {F : Type} (L : Lib F) (proxy : List (Value F))
    (job : ProxyJob) (h : formatProxy L proxy = .ok job) : ∃ c : Candidate F, proxy = c.record := by
  match proxy, h with
  | [], h => simp [formatProxy, index] at h
  | [v0], h => cases v0 <;> simp [formatProxy, index, assertString] at h
  | [v0, v1], h =>
    cases v0 <;> cases v1 <;> simp [formatProxy, index, assertString, assertFloat64] at h
  | v0 :: v1 :: v2 :: extra, h =>
    cases v0 <;> cases v1 <;> cases v2 <;>
      simp [formatProxy, index, assertString, assertFloat64] at h
    exact ⟨⟨_, _, _, extra⟩, rfl⟩

/-- A malformed record makes the decoding lines panic. -/
theorem formatProxy_malformed {F : Type} (L : Lib F) (proxy : List (Value F))
    (h : Malformed proxy) : ∃ p, formatProxy L proxy = .error p := by
  cases hf : formatProxy L proxy with
  | error p => exact ⟨p, rfl⟩
  | ok job => exact absurd (formatProxy_ok_wellFormed L proxy job hf) h

/-- The send loop on well-formed records followed by `rest`. -/
theorem enqueueAll_append {F : Type} (L : Lib F) (pre : List (Candidate F))
    (rest : List (List (Value F))) :
    enqueueAll L (pre.map Candidate.record ++ rest) =
      (pre.map (Candidate.job L) ++ (enqueueAll L rest).1, (enqueueAll L rest).2) := by
  induction pre with
  | nil => simp
  | cons c pre ih => simp [enqueueAll, formatProxy_record, ih]

/-- C7 refuted on a list of three records whose second has a string for its port: the send
loop panics at the second record, only the job of the first record has been sent, and no job
is sent for the well-formed third record. -/
theorem malformed_record_aborts :
    Malformed badRec
    ∧ enqueueAll exampleLib [rec1, badRec, rec2]
        = ([{ ProxyURL := "http://203.0.113.5:8080", ProxySchema := "http" }],
            some (.interfaceConversion "float64"))
    ∧ formatProxy exampleLib rec2
        = .ok { ProxyURL := "https://198.51.100.9:3128", ProxySchema := "https" }
    ∧ ({ ProxyURL := "https://198.51.100.9:3128", ProxySchema := "https" } : ProxyJob)
        ∉ (enqueueAll exampleLib [rec1, badRec, rec2]).1 := by
  refine ⟨?_, by decide, rfl, by decide⟩
  rintro ⟨c, hc⟩
  simp [badRec, Candidate.record] at hc

/-- C7 as amended: on a candidate list whose first malformed record follows the well-formed
records `pre`, the send loop of `checkAndSaveProxies` panics at that record, after sending
exactly the jobs of `pre` in order; no job is sent for a record after it. -/
theorem malformed_record_panics {F : Type} (L : Lib F) (pre : List (Candidate F))
    (bad : List (Value F)) (post : List (List (Value F))) (h : Malformed bad) :
    ∃ p, enqueueAll L (pre.map Candidate.record ++ bad :: post) =
      (pre.map (Candidate.job L), some p) := by
  obtain ⟨p, hp⟩ := formatProxy_malformed L bad h
  exact ⟨p, by simp [enqueueAll_append, enqueueAll, hp]⟩

/-- C7 as amended, on the list of `malformed_record_aborts`. -/
theorem malformed_record_panics_witness :
    Malformed badRec ∧
    ∃ p, enqueueAll exampleLib ([cand1].map Candidate.record ++ badRec :: [rec2]) =
      ([cand1].map (Candidate.job exampleLib), some p) :=
  have hbad : Malformed badRec := by
    rintro ⟨c, hc⟩
    simp [badRec, Candidate.record] at hc
  ⟨hbad, malformed_record_panics exampleLib [cand1] badRec [rec2] hbad⟩

/-! ## The WaitGroup -/

/-- A schedule that runs to a state satisfying `p` shows such a state reachable. -/
theorem leadsTo_reachable {F : Type} (L : Lib F) (proxyList : List (List (Value F)))
    (targetURLs : List String) (sched : List Thread) (p : State F → Bool)
    (h : leadsTo L proxyList targetURLs sched p = true) :
    ∃ s, Reachable L proxyList targetURLs s ∧ p s = true := by
  unfold leadsTo at h
  cases hr : run L proxyList targetURLs sched (init proxyList) with
  | none => simp [hr] at h
  | some s => exact ⟨s, ⟨sched, hr⟩, by simpa [hr] using h⟩

set_option maxRecDepth 100000 in
/-- C2, evaluated on two candidates: a schedule leads to a state in which the main goroutine
stands at `wg.Wait()` with the counter at 0, so that it returns in the next step, while worker
1 holds the second job with none of its targets probed yet and has not exited. -/
theorem wait_returns_while_probing :
    ∃ s, Reachable exampleLib [rec1, rec2] targetURLs s
      ∧ s.main = .wait ∧ s.wg = 0
      ∧ s.workers.get? 1 = some (.probing
          { ProxyURL := "https://198.51.100.9:3128", ProxySchema := "https" } targetURLs)
      ∧ (step exampleLib [rec1, rec2] targetURLs s .main).map (fun s1 => s1.main)
          = some .returned := by
  obtain ⟨s, hr, hp⟩ := leadsTo_reachable exampleLib [rec1, rec2] targetURLs schedEarlyReturn
    (fun s => decide (s.main = .wait) && decide (s.wg = 0)
      && decide (s.workers.get? 1 = some (.probing
          { ProxyURL := "https://198.51.100.9:3128", ProxySchema := "https" } targetURLs))
      && decide ((step exampleLib [rec1, rec2] targetURLs s .main).map (fun s1 => s1.main)
          = some .returned))
    (by decide)
  simp only [Bool.and_eq_true, decide_eq_true_eq] at hp
  exact ⟨s, hr, hp.1.1.1, hp.1.1.2, hp.1.2, hp.2⟩

set_option maxRecDepth 100000 in
/-- C10, evaluated on one candidate: a schedule leads to a state whose WaitGroup counter is
-1: the job ended with one `wg.Done()` (line 88) and each of the 100 workers with another
(line 100), 101 in all against 100 `wg.Add(1)`. -/
theorem waitgroup_counter_negative :
    ∃ s, Reachable exampleLib [rec1] targetURLs s ∧ s.wg = -1
      ∧ s.workers = List.replicate 100 .exited := by
  obtain ⟨s, hr, hp⟩ := leadsTo_reachable exampleLib [rec1] targetURLs schedNegative
    (fun s => decide (s.wg = -1) && decide (s.workers = List.replicate 100 .exited))
    (by decide)
  simp only [Bool.and_eq_true, decide_eq_true_eq] at hp
  exact ⟨s, hr, hp.1, hp.2⟩

end ProxyScrapper
